import Mathlib

/-!
Verification of the connection registry and push-delivery protocol of
`src/websocket-server/websocket-server.js`.

The server keeps a JavaScript `Map` called `clients` from teacher identifier
to the live WebSocket handle.  The embedding models:

* JSON values (`Json`) and `JSON.stringify` (the serializer used for every
  outgoing frame);
* the `clients` map as an association list with JS `Map` semantics
  (`JsMap.set` replaces in place or appends, `JsMap.delete` removes,
  `JsMap.get` looks up);
* a connection handle (`Conn`) carrying its transport `readyState`, the
  frames the server has written to it, whether its `send` throws (the
  transmission-exception mode of the real transport), the close code and
  reason the server issued, and — when the admission code attached the
  `close`/`error`/`message` listeners — the `userId` those closures captured;
* the event handlers of the source: the `wss.on('connection')` handler
  (`handleConnection`), the per-connection `message`, `close` and `error`
  listeners (`handleMessage`, `handleClose`, `handleError`), and the
  `POST /push` route (`push`).

Exceptions are modelled where the source can meet them: a handle whose
`sendThrows` flag is set makes every `ws.send` call throw, which the source
catches (outer `try`/`catch` in the connection handler, `try`/`catch` around
`socket.send` in the push route, `try`/`catch` in the message listener).
-/

namespace WsServer

/-- A JSON value, as produced by `JSON.parse` / consumed by `JSON.stringify`.
Numbers are modelled as integers (the payloads the server handles are
structural; no floating-point behaviour is relied on). -/
inductive Json where
  | null : Json
  | bool : Bool → Json
  | num : Int → Json
  | str : String → Json
  | arr : List Json → Json
  | obj : List (String × Json) → Json

/-- JSON string escaping as performed by `JSON.stringify` on the characters
that can occur in the frames at issue. -/
def escapeChar (c : Char) : String :=
  if c = '"' then "\\\""
  else if c = '\\' then "\\\\"
  else if c = '\n' then "\\n"
  else if c = '\r' then "\\r"
  else if c = '\t' then "\\t"
  else String.singleton c

def escape (s : String) : String :=
  String.join (s.toList.map escapeChar)

mutual

/-- `JSON.stringify`. -/
def Json.stringify : Json → String
  | Json.null => "null"
  | Json.bool true => "true"
  | Json.bool false => "false"
  | Json.num n => toString n
  | Json.str s => "\"" ++ escape s ++ "\""
  | Json.arr xs => "[" ++ stringifyList xs ++ "]"
  | Json.obj fs => "\x7b" ++ stringifyFields fs ++ "\x7d"

def stringifyList : List Json → String
  | [] => ""
  | [x] => Json.stringify x
  | x :: y :: xs => Json.stringify x ++ "," ++ stringifyList (y :: xs)

def stringifyFields : List (String × Json) → String
  | [] => ""
  | [(k, v)] => "\"" ++ escape k ++ "\":" ++ Json.stringify v
  | (k, v) :: f :: fs =>
      "\"" ++ escape k ++ "\":" ++ Json.stringify v ++ "," ++
        stringifyFields (f :: fs)

end

/-- JavaScript truthiness test on a JSON value (`!x` in the source):
`undefined` is handled at the `Option` level, and `null`, `false`, `0`
and `""` are falsy. -/
def Json.falsy : Json → Bool
  | Json.null => true
  | Json.bool b => !b
  | Json.num n => n = 0
  | Json.str s => s = ""
  | _ => false

/-- Falsiness of a possibly-absent value (`!req.body.x` where the field may
be `undefined`). -/
def optFalsy : Option Json → Bool
  | none => true
  | some j => j.falsy

/-- Property access `data.type` on a parsed JSON value: only objects have
the property, everything else yields `undefined`. -/
def Json.getProp : Json → String → Option Json
  | Json.obj fs, k => fs.lookup k
  | _, _ => none

/-- The test `data.type === 'ping'` of the message listener. -/
def isPing (data : Json) : Bool :=
  match Json.getProp data "type" with
  | some (Json.str s) => s = "ping"
  | _ => false

namespace JsMap

/-- `Map.prototype.set`: replace the binding in place when the key exists,
append otherwise (JS `Map` keeps the original insertion position on
overwrite). -/
def set {κ α : Type} [DecidableEq κ] : List (κ × α) → κ → α → List (κ × α)
  | [], k, v => [(k, v)]
  | (k', v') :: m, k, v =>
      if k' = k then (k, v) :: m else (k', v') :: set m k v

/-- `Map.prototype.get`: `none` models `undefined`. -/
def get {κ α : Type} [DecidableEq κ] : List (κ × α) → κ → Option α
  | [], _ => none
  | (k', v') :: m, k => if k' = k then some v' else get m k

/-- `Map.prototype.delete` (the source ignores the returned Boolean). -/
def delete {κ α : Type} [DecidableEq κ] : List (κ × α) → κ → List (κ × α)
  | [], _ => []
  | (k', v') :: m, k =>
      if k' = k then delete m k else (k', v') :: delete m k

/-- `Map.prototype.size`. -/
def size {κ α : Type} (m : List (κ × α)) : Nat := m.length

/-- `Map.prototype.keys()` as a list (`Array.from(clients.keys())`). -/
def keys {κ α : Type} (m : List (κ × α)) : List κ := m.map Prod.fst

end JsMap

/-- `readyState` of a WebSocket transport. -/
inductive ReadyState where
  | CONNECTING : ReadyState
  | OPEN : ReadyState
  | CLOSING : ReadyState
  | CLOSED : ReadyState
deriving DecidableEq

/-- One WebSocket handle (`ws`).  `sent` records the frames the server has
successfully written on it, in order.  `sendThrows` makes every `ws.send`
call on this handle throw.  `closedWith` records the `ws.close(code, reason)`
the server issued, if any.  `listenersFor` is `some uid` exactly when the
admission code attached the `message`/`close`/`error` listeners, whose
closures captured the admission-time `userId` value `uid`. -/
structure Conn where
  readyState : ReadyState
  sent : List String
  sendThrows : Bool
  closedWith : Option (Nat × String)
  listenersFor : Option String
deriving DecidableEq

/-- Whole-server state: the `clients` registry (userId → handle) and the pool
of connection objects, addressed by an abstract handle identity. -/
structure ServerState where
  clients : List (String × Nat)
  conns : List (Nat × Conn)
deriving DecidableEq

def initState : ServerState := ⟨[], []⟩

/-- JS falsiness of `userId` (a `string | null` from `searchParams.get`):
`null` and `""` are falsy. -/
def jsFalsy : Option String → Bool
  | none => true
  | some s => s = ""

/-- The one-time confirmation frame sent on admission. -/
def connectedFrame : String :=
  Json.stringify (Json.obj [("type", Json.str "connected"),
                            ("message", Json.str "连接成功")])

/-- The heartbeat reply frame. -/
def pongFrame : String :=
  Json.stringify (Json.obj [("type", Json.str "pong")])

/-- A freshly accepted `ws` handle, before any server action on it. -/
def newConn (sendThrows : Bool) : Conn :=
  ⟨ReadyState.OPEN, [], sendThrows, none, none⟩

/-- `ws.close(code, reason)`. -/
def closeWith (ws : Conn) (code : Nat) (reason : String) : Conn :=
  { ws with readyState := ReadyState.CLOSED, closedWith := some (code, reason) }

/-- The `wss.on('connection')` handler.  `cid` is the identity of the freshly
accepted handle, `sendThrows` its transmission-exception mode; `userId` and
`role` are the query parameters (`searchParams.get` yields `null` for an
absent parameter).

Source order: validate → `clients.set(userId, ws)` → `ws.send(confirmation)`
→ attach `message`/`close`/`error` listeners.  If `ws.send` throws, the outer
`catch` runs `ws.close(1011, '服务器错误')`; the registry entry already made
is not removed, and the listeners are never attached. -/
def handleConnection (s : ServerState) (cid : Nat) (sendThrows : Bool)
    (userId role : Option String) : ServerState :=
  let ws := newConn sendThrows
  if jsFalsy userId = true ∨ role ≠ some "teacher" then
    ⟨s.clients, JsMap.set s.conns cid (closeWith ws 1008 "仅支持教师角色")⟩
  else
    match userId with
    | some uid =>
      let clients := JsMap.set s.clients uid cid
      if sendThrows then
        ⟨clients, JsMap.set s.conns cid (closeWith ws 1011 "服务器错误")⟩
      else
        ⟨clients,
         JsMap.set s.conns cid
           { ws with sent := [connectedFrame], listenersFor := some uid }⟩
    | none => s

/-- The `ws.on('message')` listener, which only exists on handles that were
fully admitted (`listenersFor` set).  `frame` is the result of `JSON.parse`
on the received data: `none` when parsing threw.  A parse failure is caught
and logged; a `ping` answers with one `pong` (a throwing `send` is swallowed
by the same `catch`); every other frame is ignored. -/
def handleMessage (s : ServerState) (cid : Nat) (frame : Option Json) :
    ServerState :=
  match JsMap.get s.conns cid with
  | none => s
  | some ws =>
    match ws.listenersFor with
    | none => s
    | some _ =>
      match frame with
      | none => s
      | some data =>
        if isPing data then
          if ws.sendThrows then s
          else
            ⟨s.clients,
             JsMap.set s.conns cid { ws with sent := ws.sent ++ [pongFrame] }⟩
        else s

/-- Transport close event on handle `cid`.  The transport becomes `CLOSED`;
when the `close` listener was attached, it runs `clients.delete(userId)` with
the `userId` captured at that handle's admission. -/
def handleClose (s : ServerState) (cid : Nat) : ServerState :=
  match JsMap.get s.conns cid with
  | none => s
  | some ws =>
    let conns := JsMap.set s.conns cid { ws with readyState := ReadyState.CLOSED }
    match ws.listenersFor with
    | none => ⟨s.clients, conns⟩
    | some uid => ⟨JsMap.delete s.clients uid, conns⟩

/-- Transport error event on handle `cid`: the `error` listener logs and runs
`clients.delete(userId)` with the captured `userId`. -/
def handleError (s : ServerState) (cid : Nat) : ServerState :=
  match JsMap.get s.conns cid with
  | none => s
  | some ws =>
    match ws.listenersFor with
    | none => s
    | some uid => ⟨JsMap.delete s.clients uid, s.conns⟩

/-- Outcome of the `POST /push` route, as sent to the caller. -/
inductive PushResult where
  | missingParameter : PushResult
  | targetNotConnected : PushResult
  | deliveryFailed : PushResult
  | pushed : PushResult
deriving DecidableEq

/-- HTTP status of each outcome (`res.status(400)`, `res.status(500)`,
default 200). -/
def PushResult.status : PushResult → Nat
  | PushResult.missingParameter => 400
  | PushResult.deliveryFailed => 500
  | _ => 200

/-- The `success` field of each outcome's JSON body. -/
def PushResult.success : PushResult → Bool
  | PushResult.pushed => true
  | _ => false

def jsonOf : Option Json → Json
  | some j => j
  | none => Json.null

/-- The registry key a request-body `teacherId` can match: registry keys are
the query-parameter strings, so only a string `teacherId` can ever match
(`clients.get` with a non-string key yields `undefined`). -/
def clientKey : Option Json → Option String
  | some (Json.str t) => some t
  | _ => none

/-- Resolve a registry value to the connection object it denotes. -/
def connOf (s : ServerState) : Option Nat → Option (Nat × Conn)
  | none => none
  | some cid =>
    match JsMap.get s.conns cid with
    | none => none
    | some ws => some (cid, ws)

/-- `clients.get(teacherId)`, resolved to the live handle: `none` models a
falsy (`undefined`) `socket`. -/
def targetSocket (s : ServerState) (teacherId : Option Json) :
    Option (Nat × Conn) :=
  connOf s ((clientKey teacherId).bind (JsMap.get s.clients))

/-- The `POST /push` route.  `teacherId` and `message` are the fields of the
parsed request body (`none` for an absent field).  Source order: falsiness
check on both fields → `clients.get(teacherId)` → `readyState` check →
`socket.send(JSON.stringify(message))` inside `try`/`catch`. -/
def push (s : ServerState) (teacherId message : Option Json) :
    ServerState × PushResult :=
  if optFalsy teacherId || optFalsy message then
    (s, PushResult.missingParameter)
  else
    match targetSocket s teacherId with
    | none => (s, PushResult.targetNotConnected)
    | some (cid, ws) =>
      if ws.readyState = ReadyState.OPEN then
        if ws.sendThrows then (s, PushResult.deliveryFailed)
        else
          (⟨s.clients,
            JsMap.set s.conns cid
              { ws with sent := ws.sent ++ [Json.stringify (jsonOf message)] }⟩,
           PushResult.pushed)
      else (s, PushResult.targetNotConnected)

/-- One external event hitting the server. -/
inductive Event where
  | connect : Nat → Bool → Option String → Option String → Event
  | message : Nat → Option Json → Event
  | closed : Nat → Event
  | errored : Nat → Event
  | pushReq : Option Json → Option Json → Event

def step (s : ServerState) : Event → ServerState
  | Event.connect cid st u r => handleConnection s cid st u r
  | Event.message cid f => handleMessage s cid f
  | Event.closed cid => handleClose s cid
  | Event.errored cid => handleError s cid
  | Event.pushReq t m => (push s t m).1

def run (s : ServerState) : List Event → ServerState
  | [] => s
  | e :: es => run (step s e) es

/-- A state the server can actually be in, starting from the empty registry. -/
def Reachable (s : ServerState) : Prop :=
  ∃ es, run initState es = s

/-! ### Map lemmas -/

namespace JsMap

theorem get_set_self {κ α : Type} [DecidableEq κ] (m : List (κ × α)) (k : κ)
    (v : α) : get (set m k v) k = some v := by
  induction m with
  | nil => simp [set, get]
  | cons p m ih =>
    obtain ⟨k', v'⟩ := p
    by_cases h : k' = k <;> simp [set, get, h, ih]

theorem get_set_ne {κ α : Type} [DecidableEq κ] (m : List (κ × α))
    (k k' : κ) (v : α) (h : k' ≠ k) : get (set m k v) k' = get m k' := by
  induction m with
  | nil =>
    simp [set, get]
    exact fun hc => h hc.symm
  | cons p m ih =>
    obtain ⟨k₀, v₀⟩ := p
    by_cases h₀ : k₀ = k
    · subst h₀
      have hne : ¬ k₀ = k' := fun hc => h hc.symm
      simp [set, get, hne]
    · simp [set, get, h₀, ih]

theorem keys_cons {κ α : Type} (p : κ × α) (m : List (κ × α)) :
    keys (p :: m) = p.1 :: keys m := rfl

theorem keys_set {κ α : Type} [DecidableEq κ] (m : List (κ × α)) (k : κ)
    (v : α) :
    keys (set m k v) = if k ∈ keys m then keys m else keys m ++ [k] := by
  induction m with
  | nil => simp [set, keys]
  | cons p m ih =>
    obtain ⟨k', v'⟩ := p
    by_cases h : k' = k
    · subst h
      simp [set, keys]
    · have hne : k ≠ k' := fun hc => h hc.symm
      have hset : set ((k', v') :: m) k v = (k', v') :: set m k v := by
        simp [set, h]
      rw [hset, keys_cons, keys_cons, ih]
      by_cases hk : k ∈ keys m
      · rw [if_pos hk, if_pos (List.mem_cons_of_mem _ hk)]
      · rw [if_neg hk, if_neg (by simp [hne, hk]), List.cons_append]

theorem mem_keys_set {κ α : Type} [DecidableEq κ] (m : List (κ × α)) (k : κ)
    (v : α) : k ∈ keys (set m k v) := by
  rw [keys_set]
  split <;> simp_all

theorem length_keys {κ α : Type} (m : List (κ × α)) :
    (keys m).length = m.length :=
  List.length_map _ _

theorem size_set {κ α : Type} [DecidableEq κ] (m : List (κ × α)) (k : κ)
    (v : α) :
    size (set m k v) = if k ∈ keys m then size m else size m + 1 := by
  have h := congrArg List.length (keys_set m k v)
  rw [length_keys] at h
  rw [size, h]
  split <;> simp [size, length_keys]

theorem get_eq_none_iff {κ α : Type} [DecidableEq κ] (m : List (κ × α))
    (k : κ) : get m k = none ↔ k ∉ keys m := by
  induction m with
  | nil => simp [get, keys]
  | cons p m ih =>
    obtain ⟨k', v'⟩ := p
    by_cases h : k' = k
    · subst h
      simp [get, keys]
    · have hne : k ≠ k' := fun hc => h hc.symm
      simp [get, keys, h, ih, hne]

theorem nodup_keys_set {κ α : Type} [DecidableEq κ] (m : List (κ × α))
    (k : κ) (v : α) (h : (keys m).Nodup) : (keys (set m k v)).Nodup := by
  rw [keys_set]
  split
  · exact h
  · next hk =>
    rw [List.nodup_append]
    refine ⟨h, List.nodup_singleton k, ?_⟩
    intro a ha hb
    rw [List.mem_singleton] at hb
    subst hb
    exact hk ha

theorem get_delete_self {κ α : Type} [DecidableEq κ] (m : List (κ × α))
    (k : κ) : get (delete m k) k = none := by
  induction m with
  | nil => simp [delete, get]
  | cons p m ih =>
    obtain ⟨k', v'⟩ := p
    by_cases h : k' = k <;> simp [delete, get, h, ih]

theorem keys_delete_sublist {κ α : Type} [DecidableEq κ] (m : List (κ × α))
    (k : κ) : List.Sublist (keys (delete m k)) (keys m) := by
  induction m with
  | nil => simp [delete, keys]
  | cons p m ih =>
    obtain ⟨k', v'⟩ := p
    by_cases h : k' = k
    · simpa [delete, keys, h] using ih.cons k'
    · simpa [delete, keys, h] using ih.cons₂ k'

theorem not_mem_keys_delete {κ α : Type} [DecidableEq κ] (m : List (κ × α))
    (k : κ) : k ∉ keys (delete m k) :=
  (get_eq_none_iff _ _).mp (get_delete_self m k)

theorem nodup_keys_delete {κ α : Type} [DecidableEq κ] (m : List (κ × α))
    (k : κ) (h : (keys m).Nodup) : (keys (delete m k)).Nodup :=
  (keys_delete_sublist m k).nodup h

end JsMap

/-! ### Handler-level lemmas -/

/-- The push route never mutates the registry; only the target handle's
outgoing-frame log can change. -/
theorem push_clients (s : ServerState) (t m : Option Json) :
    ((push s t m).1).clients = s.clients := by
  unfold push
  split
  · rfl
  · split
    · rfl
    · split
      · split
        · rfl
        · rfl
      · rfl

/-- The message listener never mutates the registry. -/
theorem handleMessage_clients (s : ServerState) (cid : Nat)
    (f : Option Json) : (handleMessage s cid f).clients = s.clients := by
  unfold handleMessage
  split
  · rfl
  · split
    · rfl
    · split
      · rfl
      · split
        · split
          · rfl
          · rfl
        · rfl

/-- Every event preserves key-distinctness of the registry. -/
theorem nodup_step (s : ServerState) (e : Event)
    (h : (JsMap.keys s.clients).Nodup) :
    (JsMap.keys (step s e).clients).Nodup := by
  cases e with
  | connect cid st u r =>
    show (JsMap.keys (handleConnection s cid st u r).clients).Nodup
    unfold handleConnection
    split
    · exact h
    · split
      · split
        · exact JsMap.nodup_keys_set _ _ _ h
        · exact JsMap.nodup_keys_set _ _ _ h
      · exact h
  | message cid f =>
    show (JsMap.keys (handleMessage s cid f).clients).Nodup
    rw [handleMessage_clients]
    exact h
  | closed cid =>
    show (JsMap.keys (handleClose s cid).clients).Nodup
    unfold handleClose
    split
    · exact h
    · split
      · exact h
      · exact JsMap.nodup_keys_delete _ _ h
  | errored cid =>
    show (JsMap.keys (handleError s cid).clients).Nodup
    unfold handleError
    split
    · exact h
    · split
      · exact h
      · exact JsMap.nodup_keys_delete _ _ h
  | pushReq t m =>
    show (JsMap.keys ((push s t m).1).clients).Nodup
    rw [push_clients]
    exact h

theorem nodup_run (es : List Event) :
    ∀ s : ServerState, (JsMap.keys s.clients).Nodup →
      (JsMap.keys (run s es).clients).Nodup := by
  induction es with
  | nil => exact fun s h => h
  | cons e es ih => exact fun s h => ih _ (nodup_step s e h)

/-- A valid admission with a non-throwing handle reduces to a registry upsert
plus the confirmation send and listener attachment. -/
theorem handleConnection_valid (s : ServerState) (cid : Nat) (u : String)
    (hu : u ≠ "") :
    handleConnection s cid false (some u) (some "teacher") =
      ⟨JsMap.set s.clients u cid,
       JsMap.set s.conns cid
         ⟨ReadyState.OPEN, [connectedFrame], false, none, some u⟩⟩ := by
  unfold handleConnection
  rw [if_neg (by simp [jsFalsy, hu])]
  rfl

/-- The registry component of a valid admission is the same upsert whether or
not the confirmation send throws (`clients.set` runs before `ws.send`). -/
theorem handleConnection_valid_clients (s : ServerState) (cid : Nat)
    (b : Bool) (u : String) (hu : u ≠ "") :
    (handleConnection s cid b (some u) (some "teacher")).clients =
      JsMap.set s.clients u cid := by
  unfold handleConnection
  rw [if_neg (by simp [jsFalsy, hu])]
  cases b <;> rfl

/-- Close-event reduction for a fully admitted handle. -/
theorem handleClose_eq (s : ServerState) (cid : Nat) (ws : Conn)
    (uid : String) (h1 : JsMap.get s.conns cid = some ws)
    (h2 : ws.listenersFor = some uid) :
    handleClose s cid =
      ⟨JsMap.delete s.clients uid,
       JsMap.set s.conns cid { ws with readyState := ReadyState.CLOSED }⟩ := by
  unfold handleClose
  rw [h1]
  show (match ws.listenersFor with
        | none =>
          (⟨s.clients,
            JsMap.set s.conns cid { ws with readyState := ReadyState.CLOSED }⟩ :
            ServerState)
        | some uid =>
          ⟨JsMap.delete s.clients uid,
           JsMap.set s.conns cid { ws with readyState := ReadyState.CLOSED }⟩) = _
  rw [h2]

/-- Close-event reduction for a handle whose listeners were never attached
(admission aborted by an exception): the registry is untouched. -/
theorem handleClose_noListener (s : ServerState) (cid : Nat) (ws : Conn)
    (h1 : JsMap.get s.conns cid = some ws) (h2 : ws.listenersFor = none) :
    handleClose s cid =
      ⟨s.clients,
       JsMap.set s.conns cid { ws with readyState := ReadyState.CLOSED }⟩ := by
  unfold handleClose
  rw [h1]
  show (match ws.listenersFor with
        | none =>
          (⟨s.clients,
            JsMap.set s.conns cid { ws with readyState := ReadyState.CLOSED }⟩ :
            ServerState)
        | some uid =>
          ⟨JsMap.delete s.clients uid,
           JsMap.set s.conns cid { ws with readyState := ReadyState.CLOSED }⟩) = _
  rw [h2]

/-- Error-event reduction for a fully admitted handle. -/
theorem handleError_eq (s : ServerState) (cid : Nat) (ws : Conn)
    (uid : String) (h1 : JsMap.get s.conns cid = some ws)
    (h2 : ws.listenersFor = some uid) :
    handleError s cid = ⟨JsMap.delete s.clients uid, s.conns⟩ := by
  unfold handleError
  rw [h1]
  show (match ws.listenersFor with
        | none => s
        | some uid => (⟨JsMap.delete s.clients uid, s.conns⟩ : ServerState)) = _
  rw [h2]

/-- Message-event reduction for a `ping` frame on an admitted handle whose
`send` does not throw. -/
theorem handleMessage_ping_eq (s : ServerState) (cid : Nat) (ws : Conn)
    (uid : String) (data : Json) (hw : JsMap.get s.conns cid = some ws)
    (hl : ws.listenersFor = some uid) (hth : ws.sendThrows = false)
    (hping : isPing data = true) :
    handleMessage s cid (some data) =
      ⟨s.clients,
       JsMap.set s.conns cid { ws with sent := ws.sent ++ [pongFrame] }⟩ := by
  unfold handleMessage
  rw [hw]
  show (match ws.listenersFor with
        | none => s
        | some _ =>
          if isPing data = true then
            if ws.sendThrows = true then s
            else
              ⟨s.clients,
               JsMap.set s.conns cid { ws with sent := ws.sent ++ [pongFrame] }⟩
          else s) = _
  rw [hl]
  show (if isPing data = true then
          if ws.sendThrows = true then s
          else
            ⟨s.clients,
             JsMap.set s.conns cid
               ⟨ws.readyState, ws.sent ++ [pongFrame], ws.sendThrows,
                ws.closedWith, some uid⟩⟩
        else s) =
      ⟨s.clients,
       JsMap.set s.conns cid
         ⟨ws.readyState, ws.sent ++ [pongFrame], ws.sendThrows,
          ws.closedWith, some uid⟩⟩
  rw [if_pos hping, if_neg (by simp [hth])]

/-! ### Claims -/

/-- C1, counterexample.  The claim asserts that *every* valid
`(userId, role="teacher")` handshake increases the registry's size by
exactly one.  A second valid handshake for an identifier already
registered is an upsert: the size stays 1 instead of becoming 2. -/
theorem readmission_size_not_increased :
    jsFalsy (some "t1") = false ∧
    JsMap.size
        (handleConnection
          (handleConnection initState 0 false (some "t1") (some "teacher"))
          1 false (some "t1") (some "teacher")).clients =
      JsMap.size
        (handleConnection initState 0 false (some "t1") (some "teacher")).clients ∧
    ¬ JsMap.size
        (handleConnection
          (handleConnection initState 0 false (some "t1") (some "teacher"))
          1 false (some "t1") (some "teacher")).clients =
      JsMap.size
        (handleConnection initState 0 false (some "t1") (some "teacher")).clients
        + 1 := by
  decide

/-- C1, amended.  For every connection upgrade with non-empty `userId` and
`role = "teacher"` (on a handle whose confirmation send succeeds), the
handshake is admitted: the registry maps `userId` to the new handle, `keys()`
contains `userId`, the size increases by exactly one when `userId` was not
already registered (and is unchanged when it was — upsert), and the handle's
first (and only) server-to-client frame is the JSON confirmation
`{type: "connected", message: <human text>}`. -/
theorem valid_handshake_admits (s : ServerState) (cid : Nat) (u : String)
    (hu : u ≠ "") :
    JsMap.get (handleConnection s cid false (some u) (some "teacher")).clients u
      = some cid ∧
    u ∈ JsMap.keys
        (handleConnection s cid false (some u) (some "teacher")).clients ∧
    (u ∉ JsMap.keys s.clients →
      JsMap.size (handleConnection s cid false (some u) (some "teacher")).clients
        = JsMap.size s.clients + 1) ∧
    (u ∈ JsMap.keys s.clients →
      JsMap.size (handleConnection s cid false (some u) (some "teacher")).clients
        = JsMap.size s.clients) ∧
    JsMap.get (handleConnection s cid false (some u) (some "teacher")).conns cid
      = some ⟨ReadyState.OPEN, [connectedFrame], false, none, some u⟩ ∧
    connectedFrame =
      "\x7b\"type\":\"connected\",\"message\":\"连接成功\"\x7d" := by
  rw [handleConnection_valid s cid u hu]
  refine ⟨JsMap.get_set_self _ _ _, JsMap.mem_keys_set _ _ _, ?_, ?_,
    JsMap.get_set_self _ _ _, by decide⟩
  · intro hmem
    rw [JsMap.size_set, if_neg hmem]
  · intro hmem
    rw [JsMap.size_set, if_pos hmem]

theorem valid_handshake_admits_app :
    JsMap.get
        (handleConnection initState 0 false (some "t1") (some "teacher")).clients
        "t1" = some 0 ∧
    "t1" ∈ JsMap.keys
        (handleConnection initState 0 false (some "t1") (some "teacher")).clients ∧
    JsMap.size
        (handleConnection initState 0 false (some "t1") (some "teacher")).clients
      = JsMap.size initState.clients + 1 := by
  have h := valid_handshake_admits initState 0 "t1" (by decide)
  exact ⟨h.1, h.2.1, h.2.2.1 (by decide)⟩

/-- C5.  Every upgrade with a falsy `userId` (absent or empty) or a `role`
other than `"teacher"` leaves the registry unchanged and closes the
connection with policy-violation code 1008 and a non-empty reason string;
the connection is never added to the registry. -/
theorem invalid_handshake_rejected (s : ServerState) (cid : Nat) (st : Bool)
    (u r : Option String) (h : jsFalsy u = true ∨ r ≠ some "teacher") :
    (handleConnection s cid st u r).clients = s.clients ∧
    JsMap.get (handleConnection s cid st u r).conns cid =
      some (closeWith (newConn st) 1008 "仅支持教师角色") ∧
    (closeWith (newConn st) 1008 "仅支持教师角色").closedWith =
      some (1008, "仅支持教师角色") ∧
    "仅支持教师角色" ≠ "" := by
  have hred : handleConnection s cid st u r =
      ⟨s.clients, JsMap.set s.conns cid (closeWith (newConn st) 1008 "仅支持教师角色")⟩ := by
    unfold handleConnection
    rw [if_pos h]
  rw [hred]
  exact ⟨rfl, JsMap.get_set_self _ _ _, rfl, by decide⟩

theorem targetSocket_eq (s : ServerState) (u : String) (cid : Nat)
    (ws : Conn) (hc : JsMap.get s.clients u = some cid)
    (hw : JsMap.get s.conns cid = some ws) :
    targetSocket s (some (Json.str u)) = some (cid, ws) := by
  show connOf s (JsMap.get s.clients u) = some (cid, ws)
  rw [hc]
  show (match JsMap.get s.conns cid with
        | none => none
        | some ws => some (cid, ws)) = some (cid, ws)
  rw [hw]

theorem targetSocket_absent (s : ServerState) (u : String)
    (hc : JsMap.get s.clients u = none) :
    targetSocket s (some (Json.str u)) = none := by
  show connOf s (JsMap.get s.clients u) = none
  rw [hc]
  rfl

/-- The two push parameters being non-falsy as a Boolean fact. -/
theorem push_bodyOk (u : String) (mj : Json) (hu : u ≠ "")
    (hm : mj.falsy = false) :
    (optFalsy (some (Json.str u)) || optFalsy (some mj)) = false := by
  simp only [optFalsy, hm, Bool.or_false]
  simp [Json.falsy, hu]

/-- Reduction of the push route once the body check passed and the socket
lookup resolved. -/
theorem push_reduces (s : ServerState) (t m : Option Json) (cid : Nat)
    (ws : Conn) (hfal : (optFalsy t || optFalsy m) = false)
    (hsock : targetSocket s t = some (cid, ws)) :
    push s t m =
      if ws.readyState = ReadyState.OPEN then
        if ws.sendThrows then (s, PushResult.deliveryFailed)
        else
          (⟨s.clients,
            JsMap.set s.conns cid
              { ws with sent := ws.sent ++ [Json.stringify (jsonOf m)] }⟩,
           PushResult.pushed)
      else (s, PushResult.targetNotConnected) := by
  unfold push
  rw [if_neg (by simp [hfal]), hsock]

/-- Reduction of the push route when the socket lookup failed. -/
theorem push_reduces_none (s : ServerState) (t m : Option Json)
    (hfal : (optFalsy t || optFalsy m) = false)
    (hsock : targetSocket s t = none) :
    push s t m = (s, PushResult.targetNotConnected) := by
  unfold push
  rw [if_neg (by simp [hfal]), hsock]

/-- C2.  When the push target is registered with an open transport, the
dispatcher serializes the payload and transmits it: the target handle
receives exactly one appended frame equal to `JSON.stringify(payload)` and
the caller gets HTTP 200 `{success: true}`; when the transmit call throws,
the caller gets HTTP 500 `{success: false}` (the `DeliveryFailed` kind) and
no exception escapes the route. -/
theorem push_delivers_or_reports_failure (s : ServerState) (u : String)
    (mj : Json) (cid : Nat) (ws : Conn) (hu : u ≠ "") (hm : mj.falsy = false)
    (hc : JsMap.get s.clients u = some cid)
    (hw : JsMap.get s.conns cid = some ws)
    (hopen : ws.readyState = ReadyState.OPEN) :
    (ws.sendThrows = false →
      push s (some (Json.str u)) (some mj) =
        (⟨s.clients,
          JsMap.set s.conns cid
            { ws with sent := ws.sent ++ [Json.stringify mj] }⟩,
         PushResult.pushed) ∧
      PushResult.status PushResult.pushed = 200 ∧
      PushResult.success PushResult.pushed = true) ∧
    (ws.sendThrows = true →
      push s (some (Json.str u)) (some mj) = (s, PushResult.deliveryFailed) ∧
      PushResult.status PushResult.deliveryFailed = 500 ∧
      PushResult.success PushResult.deliveryFailed = false) := by
  have h := push_reduces s (some (Json.str u)) (some mj) cid ws
    (push_bodyOk u mj hu hm) (targetSocket_eq s u cid ws hc hw)
  rw [if_pos hopen] at h
  constructor
  · intro hth
    rw [h, if_neg (by simp [hth])]
    exact ⟨rfl, rfl, rfl⟩
  · intro hth
    rw [h, if_pos hth]
    exact ⟨rfl, rfl, rfl⟩

theorem push_delivers_app :
    push (handleConnection initState 0 false (some "t1") (some "teacher"))
        (some (Json.str "t1")) (some (Json.obj [("a", Json.num 1)])) =
      (⟨(handleConnection initState 0 false (some "t1") (some "teacher")).clients,
        JsMap.set
          (handleConnection initState 0 false (some "t1") (some "teacher")).conns
          0
          ⟨ReadyState.OPEN,
           [connectedFrame, Json.stringify (Json.obj [("a", Json.num 1)])],
           false, none, some "t1"⟩⟩,
       PushResult.pushed) ∧
    Json.stringify (Json.obj [("a", Json.num 1)]) = "\x7b\"a\":1\x7d" := by
  have h := (push_delivers_or_reports_failure
    (handleConnection initState 0 false (some "t1") (some "teacher"))
    "t1" (Json.obj [("a", Json.num 1)]) 0
    ⟨ReadyState.OPEN, [connectedFrame], false, none, some "t1"⟩
    (by decide) rfl (by decide) (by decide) rfl).1 rfl
  exact ⟨h.1, by decide⟩

/-- If the two push parameters are non-falsy, the route never answers
`MissingParameter`. -/
theorem push_not_missing (s : ServerState) (t m : Option Json)
    (h : (optFalsy t || optFalsy m) = false) :
    (push s t m).2 ≠ PushResult.missingParameter := by
  unfold push
  rw [if_neg (by simp [h])]
  split
  · simp
  · split
    · split <;> simp
    · simp

/-- C3.  With both parameters present (non-falsy), a target that is absent
from the registry, or registered but with a transport that is not open,
yields the same caller-visible outcome in both sub-cases: HTTP 200,
`{success: false}` with the `TargetNotConnected` kind, and the whole server
state — the registry in particular — is unchanged. -/
theorem push_target_not_connected (s : ServerState) (u : String) (mj : Json)
    (hu : u ≠ "") (hm : mj.falsy = false)
    (h : JsMap.get s.clients u = none ∨
         ∃ cid ws, JsMap.get s.clients u = some cid ∧
           JsMap.get s.conns cid = some ws ∧
           ws.readyState ≠ ReadyState.OPEN) :
    push s (some (Json.str u)) (some mj) = (s, PushResult.targetNotConnected) ∧
    PushResult.status PushResult.targetNotConnected = 200 ∧
    PushResult.success PushResult.targetNotConnected = false := by
  refine ⟨?_, rfl, rfl⟩
  rcases h with hnone | ⟨cid, ws, hc, hw, hns⟩
  · exact push_reduces_none s (some (Json.str u)) (some mj)
      (push_bodyOk u mj hu hm) (targetSocket_absent s u hnone)
  · rw [push_reduces s (some (Json.str u)) (some mj) cid ws
      (push_bodyOk u mj hu hm) (targetSocket_eq s u cid ws hc hw),
      if_neg hns]

theorem push_target_not_connected_app :
    push initState (some (Json.str "X")) (some (Json.num 5)) =
      (initState, PushResult.targetNotConnected) :=
  (push_target_not_connected initState "X" (Json.num 5) (by decide) rfl
    (Or.inl rfl)).1

/-- C4, counterexample.  The claim asserts the route answers
`MissingParameter` exactly when a field is absent, and never when both are
present.  The route actually tests JavaScript falsiness: a present
`message: 0` is rejected as missing. -/
theorem push_falsy_message_rejected :
    (some (Json.str "t1") : Option Json).isSome = true ∧
    (some (Json.num 0) : Option Json).isSome = true ∧
    (push initState (some (Json.str "t1")) (some (Json.num 0))).2 =
      PushResult.missingParameter := by
  decide

/-- C4, amended.  The push route answers `MissingParameter` (HTTP 400,
`{success: false}`) exactly when the `teacherId` field or the `message`
field is absent **or present with a JavaScript-falsy value** (`null`,
`false`, `0`, `""`); in that case it returns before any registry access and
the state is unchanged.  When both fields are non-falsy the result is never
`MissingParameter`. -/
theorem push_missing_parameter_iff_falsy (s : ServerState)
    (t m : Option Json) :
    ((push s t m).2 = PushResult.missingParameter ↔
      (optFalsy t || optFalsy m) = true) ∧
    ((optFalsy t || optFalsy m) = true →
      push s t m = (s, PushResult.missingParameter)) ∧
    PushResult.status PushResult.missingParameter = 400 ∧
    PushResult.success PushResult.missingParameter = false := by
  have hpos : (optFalsy t || optFalsy m) = true →
      push s t m = (s, PushResult.missingParameter) := by
    intro hcond
    unfold push
    rw [if_pos hcond]
  refine ⟨⟨?_, fun hcond => by rw [hpos hcond]⟩, hpos, rfl, rfl⟩
  intro hres
  by_cases hcond : (optFalsy t || optFalsy m) = true
  · exact hcond
  · exact absurd hres (push_not_missing s t m (by simpa using hcond))

theorem push_missing_parameter_app :
    push initState (some (Json.str "t1")) none =
      (initState, PushResult.missingParameter) :=
  (push_missing_parameter_iff_falsy initState (some (Json.str "t1")) none).2.1
    rfl

theorem invalid_handshake_rejected_app :
    (handleConnection initState 0 false none (some "student")).clients =
      initState.clients ∧
    JsMap.get (handleConnection initState 0 false none (some "student")).conns 0
      = some (closeWith (newConn false) 1008 "仅支持教师角色") := by
  have h := invalid_handshake_rejected initState 0 false none (some "student")
    (Or.inl rfl)
  exact ⟨h.1, h.2.1⟩

/-- C6.  For an admitted handle (listeners attached, capturing `uid`), a
transport close event and a transport error event each run
`clients.delete(uid)`: afterwards the registry no longer has `uid` among its
keys, `get uid` is `undefined`, and a push to `uid` answers the
`TargetNotConnected` kind. -/
theorem close_or_error_removes_entry (s : ServerState) (cid : Nat)
    (ws : Conn) (uid : String) (mj : Json)
    (h1 : JsMap.get s.conns cid = some ws)
    (h2 : ws.listenersFor = some uid) (hu : uid ≠ "")
    (hm : mj.falsy = false) :
    (handleClose s cid).clients = JsMap.delete s.clients uid ∧
    (handleError s cid).clients = JsMap.delete s.clients uid ∧
    uid ∉ JsMap.keys (handleClose s cid).clients ∧
    uid ∉ JsMap.keys (handleError s cid).clients ∧
    (push (handleClose s cid) (some (Json.str uid)) (some mj)).2 =
      PushResult.targetNotConnected ∧
    (push (handleError s cid) (some (Json.str uid)) (some mj)).2 =
      PushResult.targetNotConnected := by
  have hcl := handleClose_eq s cid ws uid h1 h2
  have her := handleError_eq s cid ws uid h1 h2
  refine ⟨by rw [hcl], by rw [her],
    by rw [hcl]; exact JsMap.not_mem_keys_delete _ _,
    by rw [her]; exact JsMap.not_mem_keys_delete _ _, ?_, ?_⟩
  · rw [hcl, push_reduces_none _ _ _ (push_bodyOk uid mj hu hm)
      (targetSocket_absent _ uid (JsMap.get_delete_self _ _))]
  · rw [her, push_reduces_none _ _ _ (push_bodyOk uid mj hu hm)
      (targetSocket_absent _ uid (JsMap.get_delete_self _ _))]

theorem close_or_error_removes_entry_app :
    "t1" ∉ JsMap.keys
        (handleClose
          (handleConnection initState 0 false (some "t1") (some "teacher"))
          0).clients ∧
    (push
        (handleClose
          (handleConnection initState 0 false (some "t1") (some "teacher"))
          0)
        (some (Json.str "t1")) (some (Json.num 5))).2 =
      PushResult.targetNotConnected := by
  have h := close_or_error_removes_entry
    (handleConnection initState 0 false (some "t1") (some "teacher")) 0
    ⟨ReadyState.OPEN, [connectedFrame], false, none, some "t1"⟩ "t1"
    (Json.num 5) (by decide) rfl (by decide) (by decide)
  exact ⟨h.2.2.1, h.2.2.2.2.1⟩

/-- C7.  Admission is an unconditional upsert with last-write-wins
semantics: after two valid admissions under the same identifier, `get(id)`
returns the second handle; and every reachable registry has at most one
entry per identifier (its key list has no duplicates). -/
theorem registry_upsert_last_write_wins :
    (∀ (s : ServerState) (cid0 cid1 : Nat) (b0 b1 : Bool) (u : String),
      u ≠ "" →
      JsMap.get
          (handleConnection
            (handleConnection s cid0 b0 (some u) (some "teacher"))
            cid1 b1 (some u) (some "teacher")).clients u = some cid1) ∧
    (∀ s : ServerState, Reachable s → (JsMap.keys s.clients).Nodup) := by
  constructor
  · intro s cid0 cid1 b0 b1 u hu
    rw [handleConnection_valid_clients _ cid1 b1 u hu]
    exact JsMap.get_set_self _ _ _
  · rintro s ⟨es, rfl⟩
    exact nodup_run es initState List.nodup_nil

theorem registry_upsert_last_write_wins_app :
    JsMap.get
        (handleConnection
          (handleConnection initState 0 false (some "t1") (some "teacher"))
          1 false (some "t1") (some "teacher")).clients "t1" = some 1 ∧
    (JsMap.keys
        (run initState
          [Event.connect 0 false (some "t1") (some "teacher"),
           Event.connect 1 false (some "t1") (some "teacher")]).clients).Nodup :=
  ⟨registry_upsert_last_write_wins.1 initState 0 1 false false "t1"
      (by decide),
   registry_upsert_last_write_wins.2 _ ⟨_, rfl⟩⟩

/-- C8.  On an open admitted handle whose `send` does not throw, a frame
parsing to JSON with `type == "ping"` produces exactly one appended
`{"type":"pong"}` reply, leaves the registry unchanged, and the transport
stays `OPEN`; a frame that fails JSON parsing is discarded: the whole state
is unchanged and the connection is not closed. -/
theorem ping_pong_roundtrip (s : ServerState) (cid : Nat) (ws : Conn)
    (uid : String) (data : Json) (hw : JsMap.get s.conns cid = some ws)
    (hl : ws.listenersFor = some uid)
    (hopen : ws.readyState = ReadyState.OPEN) (hth : ws.sendThrows = false)
    (hping : isPing data = true) :
    handleMessage s cid (some data) =
      ⟨s.clients,
       JsMap.set s.conns cid { ws with sent := ws.sent ++ [pongFrame] }⟩ ∧
    (handleMessage s cid (some data)).clients = s.clients ∧
    (JsMap.get (handleMessage s cid (some data)).conns cid).map
        Conn.readyState = some ReadyState.OPEN ∧
    pongFrame = "\x7b\"type\":\"pong\"\x7d" ∧
    handleMessage s cid none = s := by
  have h := handleMessage_ping_eq s cid ws uid data hw hl hth hping
  refine ⟨h, handleMessage_clients _ _ _, ?_, by decide, ?_⟩
  · rw [h]
    show (JsMap.get
        (JsMap.set s.conns cid { ws with sent := ws.sent ++ [pongFrame] })
        cid).map Conn.readyState = some ReadyState.OPEN
    rw [JsMap.get_set_self]
    show some ws.readyState = some ReadyState.OPEN
    rw [hopen]
  · unfold handleMessage
    rw [hw]
    show (match ws.listenersFor with | none => s | some _ => s) = s
    cases ws.listenersFor <;> rfl

theorem ping_pong_roundtrip_app :
    handleMessage (handleConnection initState 0 false (some "t1") (some "teacher"))
        0 (some (Json.obj [("type", Json.str "ping")])) =
      ⟨(handleConnection initState 0 false (some "t1") (some "teacher")).clients,
       JsMap.set
         (handleConnection initState 0 false (some "t1") (some "teacher")).conns
         0 ⟨ReadyState.OPEN, [connectedFrame, pongFrame], false, none, some "t1"⟩⟩ ∧
    handleMessage (handleConnection initState 0 false (some "t1") (some "teacher"))
        0 none =
      handleConnection initState 0 false (some "t1") (some "teacher") := by
  have h := ping_pong_roundtrip
    (handleConnection initState 0 false (some "t1") (some "teacher")) 0
    ⟨ReadyState.OPEN, [connectedFrame], false, none, some "t1"⟩ "t1"
    (Json.obj [("type", Json.str "ping")]) (by decide) rfl rfl rfl (by decide)
  exact ⟨h.1, h.2.2.2.2⟩

/-- C9.  The close listener deletes the registry entry under the `userId`
captured at its own admission, unconditionally: when the registry meanwhile
maps that identifier to a different (displacing) handle that is still open,
the stale handle's close event removes the displacing entry, and a
subsequent push reports `TargetNotConnected` although the displacing
transport is still `OPEN`. -/
theorem stale_close_deletes_displacing_entry (s : ServerState)
    (cid0 cid1 : Nat) (ws0 ws1 : Conn) (uid : String) (mj : Json)
    (h0 : JsMap.get s.conns cid0 = some ws0)
    (hl : ws0.listenersFor = some uid)
    (_hreg : JsMap.get s.clients uid = some cid1) (hne : cid1 ≠ cid0)
    (h1 : JsMap.get s.conns cid1 = some ws1)
    (hopen : ws1.readyState = ReadyState.OPEN) (hu : uid ≠ "")
    (hm : mj.falsy = false) :
    JsMap.get (handleClose s cid0).clients uid = none ∧
    JsMap.get (handleClose s cid0).conns cid1 = some ws1 ∧
    ws1.readyState = ReadyState.OPEN ∧
    (push (handleClose s cid0) (some (Json.str uid)) (some mj)).2 =
      PushResult.targetNotConnected := by
  have hcl := handleClose_eq s cid0 ws0 uid h0 hl
  refine ⟨?_, ?_, hopen, ?_⟩
  · rw [hcl]
    exact JsMap.get_delete_self _ _
  · rw [hcl]
    show JsMap.get
        (JsMap.set s.conns cid0 { ws0 with readyState := ReadyState.CLOSED })
        cid1 = some ws1
    rw [JsMap.get_set_ne _ _ _ _ hne]
    exact h1
  · rw [hcl, push_reduces_none _ _ _ (push_bodyOk uid mj hu hm)
      (targetSocket_absent _ uid (JsMap.get_delete_self _ _))]

theorem stale_close_deletes_displacing_entry_app :
    JsMap.get
        (handleClose
          (handleConnection
            (handleConnection initState 0 false (some "t1") (some "teacher"))
            1 false (some "t1") (some "teacher"))
          0).clients "t1" = none ∧
    (push
        (handleClose
          (handleConnection
            (handleConnection initState 0 false (some "t1") (some "teacher"))
            1 false (some "t1") (some "teacher"))
          0)
        (some (Json.str "t1")) (some (Json.num 7))).2 =
      PushResult.targetNotConnected := by
  have h := stale_close_deletes_displacing_entry
    (handleConnection
      (handleConnection initState 0 false (some "t1") (some "teacher"))
      1 false (some "t1") (some "teacher"))
    0 1 ⟨ReadyState.OPEN, [connectedFrame], false, none, some "t1"⟩
    ⟨ReadyState.OPEN, [connectedFrame], false, none, some "t1"⟩ "t1"
    (Json.num 7) (by decide) rfl (by decide) (by decide) (by decide) rfl
    (by decide) (by decide)
  exact ⟨h.1, h.2.2.2⟩

/-- C10.  When the confirmation send throws during admission — after
`clients.set` but before the listeners are attached — the handle is closed
with code 1011, yet the registry entry survives: the `catch` does not remove
it, the closed handle carries no listeners, and a subsequent transport close
event leaves the registry unchanged, so the registry keeps an entry for a
closed connection. -/
theorem admission_send_failure_leaks_entry (s : ServerState) (cid : Nat)
    (u : String) (hu : u ≠ "") :
    JsMap.get (handleConnection s cid true (some u) (some "teacher")).clients u
      = some cid ∧
    JsMap.get (handleConnection s cid true (some u) (some "teacher")).conns cid
      = some (closeWith (newConn true) 1011 "服务器错误") ∧
    (closeWith (newConn true) 1011 "服务器错误").closedWith =
      some (1011, "服务器错误") ∧
    (closeWith (newConn true) 1011 "服务器错误").listenersFor = none ∧
    (handleClose (handleConnection s cid true (some u) (some "teacher"))
        cid).clients =
      (handleConnection s cid true (some u) (some "teacher")).clients ∧
    JsMap.get
        (handleClose (handleConnection s cid true (some u) (some "teacher"))
          cid).clients u = some cid := by
  have hred : handleConnection s cid true (some u) (some "teacher") =
      ⟨JsMap.set s.clients u cid,
       JsMap.set s.conns cid (closeWith (newConn true) 1011 "服务器错误")⟩ := by
    unfold handleConnection
    rw [if_neg (by simp [jsFalsy, hu])]
    rfl
  rw [hred]
  have hcl := handleClose_noListener
    (⟨JsMap.set s.clients u cid,
      JsMap.set s.conns cid (closeWith (newConn true) 1011 "服务器错误")⟩ :
      ServerState)
    cid (closeWith (newConn true) 1011 "服务器错误")
    (JsMap.get_set_self _ _ _) rfl
  refine ⟨JsMap.get_set_self _ _ _, JsMap.get_set_self _ _ _, rfl, rfl, ?_, ?_⟩
  · rw [hcl]
  · rw [hcl]
    exact JsMap.get_set_self _ _ _

theorem admission_send_failure_leaks_entry_app :
    JsMap.get
        (handleConnection initState 0 true (some "t1") (some "teacher")).clients
        "t1" = some 0 ∧
    JsMap.get
        (handleClose
          (handleConnection initState 0 true (some "t1") (some "teacher"))
          0).clients "t1" = some 0 := by
  have h := admission_send_failure_leaks_entry initState 0 "t1" (by decide)
  exact ⟨h.1, h.2.2.2.2.2⟩

end WsServer
